import Mathlib

/-!
Verification development for a tiny Wavefront OBJ loader.

The loader reads an OBJ text buffer line by line, accumulates position /
texcoord / normal float buffers and a pending face list, and on each object
boundary (or at end of input) exports the pending faces into a deduplicated,
triangulated indexed mesh.

Modelling conventions:
* Machine integers (`usize`, `u32`, `isize`) are modelled as `Nat`/`Int` with
  the wraparound casts made explicit (`% 2^64`, `% 2^32`).
* The loader never computes with the float values it stores: they are parsed
  from tokens and copied verbatim into buffers.  The scalar type of `f32`
  values is therefore an abstract type `F` together with an abstract
  `fromStr : String → Option F` modelling `f32::from_str`.  Concrete scenarios
  instantiate `F := Int` and `fromStr := isizeFromStr` (the scenario inputs
  only use integer-literal floats).
* A Rust panic (out-of-bounds `Vec`/array indexing, or an explicit abort) is
  modelled by the `PanicOr.panic` outcome, which propagates to the caller.
* The `BufRead` line iteration is external I/O; the loader core is modelled as
  a function of the list of input lines.
-/

/-- Outcome of a computation that can abort the whole process (a Rust panic):
either the abort, or a value. -/
inductive PanicOr (α : Type) where
  | panic : PanicOr α
  | ok : α → PanicOr α
deriving DecidableEq

/-- The modulus of `usize` arithmetic (the target is 64-bit). -/
def usizeMod : Int := 2 ^ 64

/-- Model of Rust `as usize` applied to a (possibly negative) `isize` value:
two's-complement wraparound into `[0, 2^64)`. -/
def castUsize (x : Int) : Nat := (x % usizeMod).toNat

/-- Model of Rust `as u32` applied to a `usize` value: wraparound into
`[0, 2^32)`. -/
def castU32 (n : Nat) : Nat := n % 2 ^ 32

/-- Accumulate the value of a digit string (used by `isizeFromStr`).
Fails on any non-digit character. -/
def digitsValAux : List Char → Nat → Option Nat
  | [], acc => some acc
  | c :: cs, acc =>
    if c.isDigit then digitsValAux cs (acc * 10 + (c.toNat - 48)) else none

/-- Value of a non-empty all-digit character string; `none` otherwise. -/
def digitsVal : List Char → Option Nat
  | [] => none
  | cs => digitsValAux cs 0

/-- Upper magnitude bound of `isize` (64-bit): `2^63`. -/
def isizeBound : Int := 2 ^ 63

/-- Model of Rust `isize::from_str`: an optional sign followed by at least one
digit, rejecting values outside `[-2^63, 2^63 - 1]`. -/
def isizeFromStr (s : String) : Option Int :=
  match s.data with
  | '+' :: cs =>
    match digitsVal cs with
    | some v => if (v : Int) ≤ isizeBound - 1 then some (v : Int) else none
    | none => none
  | '-' :: cs =>
    match digitsVal cs with
    | some v => if (v : Int) ≤ isizeBound then some (-(v : Int)) else none
    | none => none
  | cs =>
    match digitsVal cs with
    | some v => if (v : Int) ≤ isizeBound - 1 then some (v : Int) else none
    | none => none

/-- Helper of `splitChar`: `acc` holds the (reversed) characters of the
current piece. -/
def splitCharAux (sep : Char) : List Char → List Char → List String
  | [], acc => [String.mk acc.reverse]
  | c :: cs, acc =>
    if c = sep then String.mk acc.reverse :: splitCharAux sep cs []
    else splitCharAux sep cs (c :: acc)

/-- Model of Rust `str::split(sep)` for a one-character separator: every
occurrence of the separator splits, and empty pieces are kept (so the result
is never empty, and splitting the empty string yields `[""]`). -/
def splitChar (sep : Char) (s : String) : List String :=
  splitCharAux sep s.data []

/-- Characters removed by Rust `str::trim` (the inputs here are ASCII). -/
def trimChars (cs : List Char) : List Char :=
  ((cs.dropWhile Char.isWhitespace).reverse.dropWhile Char.isWhitespace).reverse

/-- Model of Rust `str::trim`. -/
def trimStr (s : String) : String := String.mk (trimChars s.data)

/-- Struct storing the indices corresponding to a face vertex.  Vertices may
lack texcoords or normals; `0` is used as the sentinel for a missing field. -/
structure VertexIndices where
  v : Nat
  vt : Nat
  vn : Nat
deriving DecidableEq

/-- Write to position `i` of the local three-element index array
`let mut indices = [0; 3]` of `VertexIndices.parse`; writing past the end is
a Rust array-bounds panic. -/
def setIdx (idx : Nat × Nat × Nat) (i : Nat) (x : Nat) : PanicOr (Nat × Nat × Nat) :=
  match i with
  | 0 => .ok (x, idx.2.1, idx.2.2)
  | 1 => .ok (idx.1, x, idx.2.2)
  | 2 => .ok (idx.1, idx.2.1, x)
  | _ => .panic

/-- Resolve one parsed face-vertex field value `x` at component position `i`:
negative values are relative to the end of the corresponding buffer (whose
sizes are given by `sizes`), with an explicit abort for a negative value at a
component position past 2; non-negative values are converted to zero-based. -/
def resolveOne (sizes : Nat × Nat × Nat) (i : Nat) (x : Int) : PanicOr Nat :=
  if x < 0 then
    match i with
    | 0 => .ok (castUsize (x + (sizes.1 : Int)))
    | 1 => .ok (castUsize (x + (sizes.2.1 : Int)))
    | 2 => .ok (castUsize (x + (sizes.2.2 : Int)))
    | _ => .panic
  else .ok (castUsize (x - 1))

/-- Loop of `VertexIndices.parse` over the enumerated `/`-separated fields of
a face-vertex token.  Empty fields are skipped; a field that fails integer
parsing makes the whole token invalid (`.ok none`); a parsed field is
resolved and written into the index array (either step can abort). -/
def parseLoop (sizes : Nat × Nat × Nat) :
    List (Nat × String) → Nat × Nat × Nat → PanicOr (Option VertexIndices)
  | [], idx => .ok (some ⟨idx.1, idx.2.1, idx.2.2⟩)
  | (i, f) :: rest, idx =>
    if f.data.isEmpty then parseLoop sizes rest idx
    else
      match isizeFromStr f with
      | none => .ok none
      | some x =>
        match resolveOne sizes i x with
        | .panic => .panic
        | .ok val =>
          match setIdx idx i val with
          | .panic => .panic
          | .ok idx2 => parseLoop sizes rest idx2

/-- Parse the vertex indices from one face-vertex token, given the current
counts of positions, texcoords and normals (needed for relative indices).
`.ok none` means the token is invalid. -/
def VertexIndices.parse (face_str : String) (pos_sz tex_sz norm_sz : Nat) :
    PanicOr (Option VertexIndices) :=
  parseLoop (pos_sz, tex_sz, norm_sz) ((splitChar '/' face_str).enum) (0, 0, 0)

/-- Enum representing either a quad or triangle face, storing indices for the
face vertices. -/
inductive Face where
  | Triangle : VertexIndices → VertexIndices → VertexIndices → Face
  | Quad : VertexIndices → VertexIndices → VertexIndices → VertexIndices → Face
deriving DecidableEq

/-- Loop of `parse_floatn`: parse each non-empty trimmed token as a float and
append it to `vals`; stop with `false` at the first parse failure; at the end
report whether the accumulated length equals `target`. -/
def parse_floatn_go {F : Type} (fromStr : String → Option F) (target : Nat) :
    List String → List F → Bool × List F
  | [], vals => (vals.length == target, vals)
  | p :: rest, vals =>
    if p.data.isEmpty then parse_floatn_go fromStr target rest vals
    else
      match fromStr (trimStr p) with
      | some x => parse_floatn_go fromStr target rest (vals ++ [x])
      | none => (false, vals)

/-- Parse the floatn information from the tokens, appending to `vals`; returns
`false` (with the partial appends) if parsing failed or the number of floats
found differs from `n`. -/
def parse_floatn {F : Type} (fromStr : String → Option F)
    (val_str : List String) (vals : List F) (n : Nat) : Bool × List F :=
  parse_floatn_go fromStr (vals.length + n) val_str vals

/-- Loop of `parse_face`: resolve every face-vertex token of the record into
the local `indices` vector, failing the whole record on the first invalid
token. -/
def collect_face_indices (pos_sz tex_sz norm_sz : Nat) :
    List String → List VertexIndices → PanicOr (Option (List VertexIndices))
  | [], acc => .ok (some acc)
  | f :: rest, acc =>
    match VertexIndices.parse f pos_sz tex_sz norm_sz with
    | .panic => .panic
    | .ok none => .ok none
    | .ok (some v) => collect_face_indices pos_sz tex_sz norm_sz rest (acc ++ [v])

/-- Parse vertex indices for a face record and append the classified face
(triangle for 3 resolved vertices, quad for 4) to the face list; any other
vertex count, or any invalid token, returns `false` with the face list
unchanged. -/
def parse_face (face_str : List String) (faces : List Face)
    (pos_sz tex_sz norm_sz : Nat) : PanicOr (Bool × List Face) :=
  match collect_face_indices pos_sz tex_sz norm_sz face_str [] with
  | .panic => .panic
  | .ok none => .ok (false, faces)
  | .ok (some l) =>
    match l with
    | [a, b, c] => .ok (true, faces ++ [Face.Triangle a b c])
    | [a, b, c, d] => .ok (true, faces ++ [Face.Quad a b c d])
    | _ => .ok (false, faces)

/-- A mesh for some model containing its triangle geometry: flat position /
normal / texcoord buffers and the triangle index buffer. -/
structure Mesh (F : Type) where
  positions : List F
  normals : List F
  texcoords : List F
  indices : List Nat
deriving DecidableEq

/-- Create a new empty mesh. -/
def Mesh.empty (F : Type) : Mesh F := ⟨[], [], [], []⟩

/-- A named model within the file. -/
structure Model (F : Type) where
  mesh : Mesh F
  name : String
deriving DecidableEq

/-- The per-export deduplication map from `VertexIndices` to assigned output
vertex index, modelled as an association list (only absent keys are ever
inserted, so its length is the number of mapped keys, matching
`HashMap::len`). -/
abbrev IndexMap := List (VertexIndices × Nat)

/-- Lookup in the deduplication map (model of `HashMap::get`). -/
def IndexMap.find (m : IndexMap) (k : VertexIndices) : Option Nat :=
  (m.find? (fun e => e.1 == k)).map (fun e => e.2)

/-- Read index `i` of a float buffer; out of bounds is a Rust `Vec` indexing
panic. -/
def getF {F : Type} (l : List F) (i : Nat) : PanicOr F :=
  match l.get? i with
  | some x => .ok x
  | none => .panic

/-- Add a vertex to a mesh by either re-using an existing index (when the
triple is in `index_map`) or appending the position (and texcoord / normal,
when those buffers are non-empty) floats and creating a new vertex whose
index is the current size of the map cast to `u32`. -/
def add_vertex {F : Type} (mesh : Mesh F) (index_map : IndexMap)
    (vert : VertexIndices) (pos texcoord normal : List F) :
    PanicOr (Mesh F × IndexMap) :=
  match IndexMap.find index_map vert with
  | some i => .ok ({ mesh with indices := mesh.indices ++ [i] }, index_map)
  | none =>
    match getF pos (vert.v * 3), getF pos (vert.v * 3 + 1), getF pos (vert.v * 3 + 2) with
    | .ok p0, .ok p1, .ok p2 =>
      let m1 : Mesh F := { mesh with positions := mesh.positions ++ [p0, p1, p2] }
      match (if texcoord.isEmpty then .ok m1 else
              match getF texcoord (vert.vt * 2), getF texcoord (vert.vt * 2 + 1) with
              | .ok t0, .ok t1 => .ok { m1 with texcoords := m1.texcoords ++ [t0, t1] }
              | _, _ => .panic : PanicOr (Mesh F)) with
      | .panic => .panic
      | .ok m2 =>
        match (if normal.isEmpty then .ok m2 else
                match getF normal (vert.vn * 3), getF normal (vert.vn * 3 + 1),
                    getF normal (vert.vn * 3 + 2) with
                | .ok n0, .ok n1, .ok n2 =>
                  .ok { m2 with normals := m2.normals ++ [n0, n1, n2] }
                | _, _, _ => .panic : PanicOr (Mesh F)) with
        | .panic => .panic
        | .ok m3 =>
          .ok ({ m3 with indices := m3.indices ++ [castU32 index_map.length] },
               index_map ++ [(vert, castU32 index_map.length)])
    | _, _, _ => .panic

/-- The `add_vertex` calls performed by `export_faces` for one face, in
order: a triangle as is, a quad fan-split into two triangles. -/
def Face.vertexList : Face → List VertexIndices
  | .Triangle a b c => [a, b, c]
  | .Quad a b c d => [a, b, c, a, c, d]

/-- Run `add_vertex` over a list of face vertices in order. -/
def add_face_vertices {F : Type} (pos texcoord normal : List F) :
    List VertexIndices → Mesh F → IndexMap → PanicOr (Mesh F × IndexMap)
  | [], mesh, index_map => .ok (mesh, index_map)
  | v :: vs, mesh, index_map =>
    match add_vertex mesh index_map v pos texcoord normal with
    | .panic => .panic
    | .ok (m2, map2) => add_face_vertices pos texcoord normal vs m2 map2

/-- Loop of `export_faces` over the face list. -/
def export_faces_go {F : Type} (pos texcoord normal : List F) :
    List Face → Mesh F → IndexMap → PanicOr (Mesh F)
  | [], mesh, _ => .ok mesh
  | f :: fs, mesh, index_map =>
    match add_face_vertices pos texcoord normal f.vertexList mesh index_map with
    | .panic => .panic
    | .ok (m2, map2) => export_faces_go pos texcoord normal fs m2 map2

/-- Export a list of faces to a mesh and return it, converting quads to tris;
the deduplication map and the mesh start empty on every call. -/
def export_faces {F : Type} (pos texcoord normal : List F) (faces : List Face) :
    PanicOr (Mesh F) :=
  export_faces_go pos texcoord normal faces (Mesh.empty F) []

/-- The error kinds of the loader. -/
inductive LoadError where
  | OpenFileFailed
  | ReadError
  | UnrecognizedCharacter
  | PositionParseError
  | NormalParseError
  | TexcoordParseError
  | FaceParseError
  | InvalidObjectName
  | GenericFailure
deriving DecidableEq

/-- The mutable state of `load_obj_buf` while folding over the input lines. -/
structure LoadState (F : Type) where
  models : List (Model F)
  tmp_pos : List F
  tmp_texcoord : List F
  tmp_normal : List F
  tmp_faces : List Face
  name : String
deriving DecidableEq

/-- The initial state of `load_obj_buf`. -/
def initState (F : Type) : LoadState F := ⟨[], [], [], [], [], ""⟩

/-- Result of the whole load: the models, a load error, or a Rust panic. -/
inductive LoadOutcome (F : Type) where
  | ok : List (Model F) → LoadOutcome F
  | err : LoadError → LoadOutcome F
  | panic : LoadOutcome F
deriving DecidableEq

/-- Dispatch on the leading token `w` of a line, with `rest` the remaining
space-separated tokens (`#`, `v`, `vt`, `vn`, `f`, `o`; `g` / `mtllib` /
`usemtl` / empty / unrecognized tokens are ignored). -/
def dispatchLine {F : Type} (fromStr : String → Option F) (st : LoadState F)
    (w : String) (rest : List String) : PanicOr (Except LoadError (LoadState F)) :=
    if w = "#" then .ok (.ok st)
    else if w = "v" then
      match parse_floatn fromStr rest st.tmp_pos 3 with
      | (true, vals) => .ok (.ok { st with tmp_pos := vals })
      | (false, _) => .ok (.error LoadError.PositionParseError)
    else if w = "vt" then
      match parse_floatn fromStr rest st.tmp_texcoord 2 with
      | (true, vals) => .ok (.ok { st with tmp_texcoord := vals })
      | (false, _) => .ok (.error LoadError.TexcoordParseError)
    else if w = "vn" then
      match parse_floatn fromStr rest st.tmp_normal 3 with
      | (true, vals) => .ok (.ok { st with tmp_normal := vals })
      | (false, _) => .ok (.error LoadError.NormalParseError)
    else if w = "f" then
      match parse_face rest st.tmp_faces (st.tmp_pos.length / 3)
          (st.tmp_texcoord.length / 2) (st.tmp_normal.length / 3) with
      | .panic => .panic
      | .ok (true, faces2) => .ok (.ok { st with tmp_faces := faces2 })
      | .ok (false, _) => .ok (.error LoadError.FaceParseError)
    else if w = "o" then
      match (if st.name ≠ "" ∧ st.tmp_faces ≠ [] then
              match export_faces st.tmp_pos st.tmp_texcoord st.tmp_normal st.tmp_faces with
              | .panic => .panic
              | .ok mesh => .ok (st.models ++ [Model.mk mesh st.name], ([] : List Face))
             else .ok (st.models, st.tmp_faces) :
             PanicOr (List (Model F) × List Face)) with
      | .panic => .panic
      | .ok (models2, faces2) =>
        match rest.head? with
        | some n =>
          .ok (.ok { st with models := models2, tmp_faces := faces2, name := n })
        | none => .ok (.error LoadError.InvalidObjectName)
    else .ok (.ok st)

/-- Process one input line of `load_obj_buf`: split the trimmed line on
spaces and dispatch on the leading token. -/
def processLine {F : Type} (fromStr : String → Option F) (st : LoadState F)
    (line : String) : PanicOr (Except LoadError (LoadState F)) :=
  match splitChar ' ' (trimStr line) with
  | [] => .ok (.ok st)
  | w :: rest => dispatchLine fromStr st w rest

/-- End-of-input step of `load_obj_buf`: if an object name is set, export and
append the final model (regardless of whether faces are pending). -/
def loadFinish {F : Type} (st : LoadState F) : LoadOutcome F :=
  if st.name ≠ "" then
    match export_faces st.tmp_pos st.tmp_texcoord st.tmp_normal st.tmp_faces with
    | .panic => .panic
    | .ok mesh => .ok (st.models ++ [Model.mk mesh st.name])
  else .ok st.models

/-- Fold of `load_obj_buf` over the input lines. -/
def loadLoop {F : Type} (fromStr : String → Option F) :
    List String → LoadState F → LoadOutcome F
  | [], st => loadFinish st
  | l :: ls, st =>
    match processLine fromStr st l with
    | .panic => .panic
    | .ok (.error e) => .err e
    | .ok (.ok st2) => loadLoop fromStr ls st2

/-- Load the various meshes in an OBJ buffer, given as its list of lines. -/
def load_obj_buf {F : Type} (fromStr : String → Option F)
    (lines : List String) : LoadOutcome F :=
  loadLoop fromStr lines (initState F)

/-! ### Helper lemmas about the deduplication map -/

theorem IndexMap.find_append_left {m l : IndexMap} {k : VertexIndices} {i : Nat}
    (h : IndexMap.find m k = some i) : IndexMap.find (m ++ l) k = some i := by
  unfold IndexMap.find at h ⊢
  cases hf : List.find? (fun e => e.1 == k) m with
  | none => rw [hf] at h; simp at h
  | some e =>
    rw [hf] at h
    rw [List.find?_append, hf]
    simpa using h

theorem IndexMap.find_append_new {m : IndexMap} {k : VertexIndices} {x : Nat}
    (h : IndexMap.find m k = none) : IndexMap.find (m ++ [(k, x)]) k = some x := by
  unfold IndexMap.find at h ⊢
  cases hf : List.find? (fun e => e.1 == k) m with
  | some e => rw [hf] at h; simp at h
  | none =>
    rw [List.find?_append, hf]
    simp [List.find?]

theorem IndexMap.find_mem {m : IndexMap} {k : VertexIndices} {i : Nat}
    (h : IndexMap.find m k = some i) : ∃ e ∈ m, e.2 = i := by
  unfold IndexMap.find at h
  cases hf : List.find? (fun e => e.1 == k) m with
  | none => rw [hf] at h; simp at h
  | some e =>
    rw [hf] at h
    exact ⟨e, List.mem_of_find?_eq_some hf, by simpa using h⟩

/-! ### Shape of a successful `add_vertex` call -/

theorem add_vertex_cases {F : Type} {mesh : Mesh F} {index_map : IndexMap}
    {vert : VertexIndices} {pos texcoord normal : List F} {m2 : Mesh F}
    {map2 : IndexMap}
    (h : add_vertex mesh index_map vert pos texcoord normal = .ok (m2, map2)) :
    (∃ i, IndexMap.find index_map vert = some i ∧ map2 = index_map ∧
      m2.indices = mesh.indices ++ [i] ∧ m2.positions = mesh.positions ∧
      m2.texcoords = mesh.texcoords ∧ m2.normals = mesh.normals) ∨
    (IndexMap.find index_map vert = none ∧
      map2 = index_map ++ [(vert, castU32 index_map.length)] ∧
      m2.indices = mesh.indices ++ [castU32 index_map.length] ∧
      (∃ p0 p1 p2, getF pos (vert.v * 3) = .ok p0 ∧
        getF pos (vert.v * 3 + 1) = .ok p1 ∧ getF pos (vert.v * 3 + 2) = .ok p2 ∧
        m2.positions = mesh.positions ++ [p0, p1, p2]) ∧
      ((texcoord = [] ∧ m2.texcoords = mesh.texcoords) ∨
       (texcoord ≠ [] ∧ ∃ t0 t1, getF texcoord (vert.vt * 2) = .ok t0 ∧
         getF texcoord (vert.vt * 2 + 1) = .ok t1 ∧
         m2.texcoords = mesh.texcoords ++ [t0, t1])) ∧
      ((normal = [] ∧ m2.normals = mesh.normals) ∨
       (normal ≠ [] ∧ ∃ n0 n1 n2, getF normal (vert.vn * 3) = .ok n0 ∧
         getF normal (vert.vn * 3 + 1) = .ok n1 ∧
         getF normal (vert.vn * 3 + 2) = .ok n2 ∧
         m2.normals = mesh.normals ++ [n0, n1, n2]))) := by
  unfold add_vertex at h
  cases hf : IndexMap.find index_map vert with
  | some i =>
    rw [hf] at h
    simp only [PanicOr.ok.injEq, Prod.mk.injEq] at h
    obtain ⟨hm, hmap⟩ := h
    subst hm; subst hmap
    exact Or.inl ⟨i, rfl, rfl, rfl, rfl, rfl, rfl⟩
  | none =>
    rw [hf] at h
    cases hp0 : getF pos (vert.v * 3) with
    | panic => rw [hp0] at h; cases h
    | ok p0 =>
    cases hp1 : getF pos (vert.v * 3 + 1) with
    | panic => rw [hp0, hp1] at h; cases h
    | ok p1 =>
    cases hp2 : getF pos (vert.v * 3 + 2) with
    | panic => rw [hp0, hp1, hp2] at h; cases h
    | ok p2 =>
    rw [hp0, hp1, hp2] at h
    by_cases htex : texcoord.isEmpty
    all_goals by_cases hnorm : normal.isEmpty
    all_goals simp only [htex, hnorm, if_true, if_false, Bool.false_eq_true] at h
    · -- texcoord and normal both empty
      simp only [PanicOr.ok.injEq, Prod.mk.injEq] at h
      obtain ⟨hm, hmap⟩ := h
      subst hm; subst hmap
      refine Or.inr ⟨rfl, rfl, rfl, ⟨p0, p1, p2, rfl, rfl, rfl, rfl⟩, ?_, ?_⟩
      · exact Or.inl ⟨List.isEmpty_iff.mp htex, rfl⟩
      · exact Or.inl ⟨List.isEmpty_iff.mp hnorm, rfl⟩
    · -- texcoord empty, normal non-empty
      cases hn0 : getF normal (vert.vn * 3) with
      | panic => rw [hn0] at h; cases h
      | ok n0 =>
      cases hn1 : getF normal (vert.vn * 3 + 1) with
      | panic => rw [hn0, hn1] at h; cases h
      | ok n1 =>
      cases hn2 : getF normal (vert.vn * 3 + 2) with
      | panic => rw [hn0, hn1, hn2] at h; cases h
      | ok n2 =>
      rw [hn0, hn1, hn2] at h
      simp only [PanicOr.ok.injEq, Prod.mk.injEq] at h
      obtain ⟨hm, hmap⟩ := h
      subst hm; subst hmap
      refine Or.inr ⟨rfl, rfl, rfl, ⟨p0, p1, p2, rfl, rfl, rfl, rfl⟩, ?_, ?_⟩
      · exact Or.inl ⟨List.isEmpty_iff.mp htex, rfl⟩
      · exact Or.inr ⟨fun hc => hnorm (by simp [hc]),
          n0, n1, n2, rfl, rfl, rfl, rfl⟩
    · -- texcoord non-empty, normal empty
      cases ht0 : getF texcoord (vert.vt * 2) with
      | panic => rw [ht0] at h; cases h
      | ok t0 =>
      cases ht1 : getF texcoord (vert.vt * 2 + 1) with
      | panic => rw [ht0, ht1] at h; cases h
      | ok t1 =>
      rw [ht0, ht1] at h
      simp only [PanicOr.ok.injEq, Prod.mk.injEq] at h
      obtain ⟨hm, hmap⟩ := h
      subst hm; subst hmap
      refine Or.inr ⟨rfl, rfl, rfl, ⟨p0, p1, p2, rfl, rfl, rfl, rfl⟩, ?_, ?_⟩
      · exact Or.inr ⟨fun hc => htex (by simp [hc]), t0, t1, rfl, rfl, rfl⟩
      · exact Or.inl ⟨List.isEmpty_iff.mp hnorm, rfl⟩
    · -- texcoord and normal both non-empty
      cases ht0 : getF texcoord (vert.vt * 2) with
      | panic => rw [ht0] at h; cases h
      | ok t0 =>
      cases ht1 : getF texcoord (vert.vt * 2 + 1) with
      | panic => rw [ht0, ht1] at h; cases h
      | ok t1 =>
      rw [ht0, ht1] at h
      cases hn0 : getF normal (vert.vn * 3) with
      | panic => rw [hn0] at h; cases h
      | ok n0 =>
      cases hn1 : getF normal (vert.vn * 3 + 1) with
      | panic => rw [hn0, hn1] at h; cases h
      | ok n1 =>
      cases hn2 : getF normal (vert.vn * 3 + 2) with
      | panic => rw [hn0, hn1, hn2] at h; cases h
      | ok n2 =>
      rw [hn0, hn1, hn2] at h
      simp only [PanicOr.ok.injEq, Prod.mk.injEq] at h
      obtain ⟨hm, hmap⟩ := h
      subst hm; subst hmap
      refine Or.inr ⟨rfl, rfl, rfl, ⟨p0, p1, p2, rfl, rfl, rfl, rfl⟩, ?_, ?_⟩
      · exact Or.inr ⟨fun hc => htex (by simp [hc]), t0, t1, rfl, rfl, rfl⟩
      · exact Or.inr ⟨fun hc => hnorm (by simp [hc]),
          n0, n1, n2, rfl, rfl, rfl, rfl⟩

theorem add_vertex_hit {F : Type} {mesh : Mesh F} {index_map : IndexMap}
    {vert : VertexIndices} {i : Nat} (pos texcoord normal : List F)
    (h : IndexMap.find index_map vert = some i) :
    add_vertex mesh index_map vert pos texcoord normal =
      .ok ({ mesh with indices := mesh.indices ++ [i] }, index_map) := by
  unfold add_vertex
  rw [h]

theorem add_vertex_pushed {F : Type} {mesh : Mesh F} {index_map : IndexMap}
    {vert : VertexIndices} {pos texcoord normal : List F} {m2 : Mesh F}
    {map2 : IndexMap}
    (h : add_vertex mesh index_map vert pos texcoord normal = .ok (m2, map2)) :
    ∃ j, m2.indices = mesh.indices ++ [j] ∧ IndexMap.find map2 vert = some j ∧
      ∀ k i, IndexMap.find index_map k = some i → IndexMap.find map2 k = some i := by
  rcases add_vertex_cases h with
    ⟨i, hfind, hmap, hidx, _, _, _⟩ | ⟨hfind, hmap, hidx, _, _, _⟩
  · exact ⟨i, hidx, hmap ▸ hfind, fun k j hk => hmap ▸ hk⟩
  · refine ⟨castU32 index_map.length, hidx, ?_, ?_⟩
    · rw [hmap]; exact IndexMap.find_append_new hfind
    · intro k j hk; rw [hmap]; exact IndexMap.find_append_left hk

theorem add_face_vertices_cons_ok {F : Type} {pos texcoord normal : List F}
    {v : VertexIndices} {vs : List VertexIndices} {mesh : Mesh F}
    {index_map : IndexMap} {r : Mesh F × IndexMap}
    (h : add_face_vertices pos texcoord normal (v :: vs) mesh index_map = .ok r) :
    ∃ m2 map2, add_vertex mesh index_map v pos texcoord normal = .ok (m2, map2) ∧
      add_face_vertices pos texcoord normal vs m2 map2 = .ok r := by
  unfold add_face_vertices at h
  cases ha : add_vertex mesh index_map v pos texcoord normal with
  | panic => rw [ha] at h; cases h
  | ok p =>
    rw [ha] at h
    exact ⟨p.1, p.2, rfl, h⟩

/-! ### Mesh invariants established by the exporter -/

/-- The internal invariant maintained by `export_faces` between `add_vertex`
calls: the position buffer holds exactly three floats per mapped vertex,
texcoord / normal buffers grow in pairs / triples, and every assigned index
(in the map and in the mesh index buffer) is below the map size. -/
def ExportInv {F : Type} (m : Mesh F) (map : IndexMap) : Prop :=
  m.positions.length = 3 * map.length ∧
  m.texcoords.length % 2 = 0 ∧
  m.normals.length % 3 = 0 ∧
  (∀ e ∈ map, e.2 < map.length) ∧
  (∀ i ∈ m.indices, i < map.length)

/-- The published invariant of a `Mesh`. -/
def MeshInv {F : Type} (m : Mesh F) : Prop :=
  m.positions.length % 3 = 0 ∧ m.texcoords.length % 2 = 0 ∧
  m.normals.length % 3 = 0 ∧ m.indices.length % 3 = 0 ∧
  ∀ i ∈ m.indices, i < m.positions.length / 3

theorem add_vertex_inv {F : Type} {mesh : Mesh F} {index_map : IndexMap}
    {vert : VertexIndices} {pos texcoord normal : List F} {m2 : Mesh F}
    {map2 : IndexMap} (hI : ExportInv mesh index_map)
    (h : add_vertex mesh index_map vert pos texcoord normal = .ok (m2, map2)) :
    ExportInv m2 map2 ∧ m2.indices.length = mesh.indices.length + 1 ∧
      index_map.length ≤ map2.length := by
  obtain ⟨hpos, htex, hnorm, hmap, hidx⟩ := hI
  rcases add_vertex_cases h with
    ⟨i, hfind, hmapeq, hidxeq, hposeq, htexeq, hnormeq⟩ |
    ⟨hfind, hmapeq, hidxeq, ⟨p0, p1, p2, _, _, _, hposeq⟩, htexcase, hnormcase⟩
  · subst hmapeq
    refine ⟨⟨by rw [hposeq]; exact hpos, by rw [htexeq]; exact htex,
      by rw [hnormeq]; exact hnorm, hmap, ?_⟩, by simp [hidxeq], le_refl _⟩
    intro j hj
    rw [hidxeq] at hj
    rcases List.mem_append.mp hj with hj | hj
    · exact hidx j hj
    · obtain ⟨e, he, he2⟩ := IndexMap.find_mem hfind
      simp only [List.mem_singleton] at hj
      subst hj
      exact he2 ▸ hmap e he
  · have hlen2 : map2.length = index_map.length + 1 := by simp [hmapeq]
    have hcast : castU32 index_map.length ≤ index_map.length := Nat.mod_le _ _
    refine ⟨⟨?_, ?_, ?_, ?_, ?_⟩, by simp [hidxeq], by omega⟩
    · rw [hposeq, hlen2]; simp [hpos]; ring
    · rcases htexcase with ⟨_, hteq⟩ | ⟨_, t0, t1, _, _, hteq⟩ <;>
        simp [hteq, Nat.add_mod, htex]
    · rcases hnormcase with ⟨_, hneq⟩ | ⟨_, n0, n1, n2, _, _, _, hneq⟩ <;>
        simp [hneq, Nat.add_mod, hnorm]
    · intro e he
      rw [hmapeq] at he
      rcases List.mem_append.mp he with he | he
      · have := hmap e he; omega
      · simp only [List.mem_singleton] at he
        subst he
        simpa [hlen2] using by omega
    · intro j hj
      rw [hidxeq] at hj
      rcases List.mem_append.mp hj with hj | hj
      · have := hidx j hj; omega
      · simp only [List.mem_singleton] at hj
        subst hj
        omega

theorem add_face_vertices_inv {F : Type} {pos texcoord normal : List F} :
    ∀ {vs : List VertexIndices} {mesh : Mesh F} {index_map : IndexMap}
      {m2 : Mesh F} {map2 : IndexMap}, ExportInv mesh index_map →
      add_face_vertices pos texcoord normal vs mesh index_map = .ok (m2, map2) →
      ExportInv m2 map2 ∧ m2.indices.length = mesh.indices.length + vs.length
  | [], mesh, index_map, m2, map2, hI, h => by
    unfold add_face_vertices at h
    simp only [PanicOr.ok.injEq, Prod.mk.injEq] at h
    obtain ⟨h1, h2⟩ := h
    subst h1; subst h2
    exact ⟨hI, by simp⟩
  | v :: vs, mesh, index_map, m2, map2, hI, h => by
    obtain ⟨mm, mp, ha, hrest⟩ := add_face_vertices_cons_ok h
    obtain ⟨hI2, hlen, _⟩ := add_vertex_inv hI ha
    obtain ⟨hI3, hlen3⟩ := add_face_vertices_inv hI2 hrest
    refine ⟨hI3, ?_⟩
    rw [hlen3, hlen]
    simp [Nat.add_assoc, Nat.add_comm 1]

theorem vertexList_length (f : Face) :
    f.vertexList.length = 3 ∨ f.vertexList.length = 6 := by
  cases f <;> simp [Face.vertexList]

theorem export_faces_go_inv {F : Type} {pos texcoord normal : List F} :
    ∀ {fs : List Face} {m : Mesh F} {map : IndexMap} {mesh : Mesh F},
      ExportInv m map → m.indices.length % 3 = 0 →
      export_faces_go pos texcoord normal fs m map = .ok mesh → MeshInv mesh
  | [], m, map, mesh, hI, h3, h => by
    unfold export_faces_go at h
    simp only [PanicOr.ok.injEq] at h
    subst h
    obtain ⟨hpos, htex, hnorm, _, hidx⟩ := hI
    refine ⟨by omega, htex, hnorm, h3, ?_⟩
    intro i hi
    have := hidx i hi
    omega
  | f :: fs, m, map, mesh, hI, h3, h => by
    unfold export_faces_go at h
    cases ha : add_face_vertices pos texcoord normal f.vertexList m map with
    | panic => rw [ha] at h; cases h
    | ok p =>
      rw [ha] at h
      obtain ⟨hI2, hlen⟩ := add_face_vertices_inv hI ha
      have h3' : p.1.indices.length % 3 = 0 := by
        rcases vertexList_length f with hf | hf <;> rw [hlen, hf] <;> omega
      exact export_faces_go_inv hI2 h3' h

theorem export_faces_inv {F : Type} {pos texcoord normal : List F}
    {faces : List Face} {mesh : Mesh F}
    (h : export_faces pos texcoord normal faces = .ok mesh) : MeshInv mesh := by
  unfold export_faces at h
  refine export_faces_go_inv ?_ (by simp [Mesh.empty]) h
  refine ⟨by simp [Mesh.empty], by simp [Mesh.empty], by simp [Mesh.empty], ?_, ?_⟩
  · intro e he; simp at he
  · intro i hi; simp [Mesh.empty] at hi

/-! ### Reduction lemmas for the record dispatcher -/

theorem processLine_cons {F : Type} (fromStr : String → Option F)
    (st : LoadState F) {line w : String} {rest : List String}
    (h : splitChar ' ' (trimStr line) = w :: rest) :
    processLine fromStr st line = dispatchLine fromStr st w rest := by
  unfold processLine
  rw [h]

theorem dispatch_v {F : Type} (fromStr : String → Option F) (st : LoadState F)
    (rest : List String) :
    dispatchLine fromStr st "v" rest =
      match parse_floatn fromStr rest st.tmp_pos 3 with
      | (true, vals) => .ok (.ok { st with tmp_pos := vals })
      | (false, _) => .ok (.error LoadError.PositionParseError) := rfl

theorem dispatch_vt {F : Type} (fromStr : String → Option F) (st : LoadState F)
    (rest : List String) :
    dispatchLine fromStr st "vt" rest =
      match parse_floatn fromStr rest st.tmp_texcoord 2 with
      | (true, vals) => .ok (.ok { st with tmp_texcoord := vals })
      | (false, _) => .ok (.error LoadError.TexcoordParseError) := rfl

theorem dispatch_vn {F : Type} (fromStr : String → Option F) (st : LoadState F)
    (rest : List String) :
    dispatchLine fromStr st "vn" rest =
      match parse_floatn fromStr rest st.tmp_normal 3 with
      | (true, vals) => .ok (.ok { st with tmp_normal := vals })
      | (false, _) => .ok (.error LoadError.NormalParseError) := rfl

theorem dispatch_f {F : Type} (fromStr : String → Option F) (st : LoadState F)
    (rest : List String) :
    dispatchLine fromStr st "f" rest =
      match parse_face rest st.tmp_faces (st.tmp_pos.length / 3)
          (st.tmp_texcoord.length / 2) (st.tmp_normal.length / 3) with
      | .panic => .panic
      | .ok (true, faces2) => .ok (.ok { st with tmp_faces := faces2 })
      | .ok (false, _) => .ok (.error LoadError.FaceParseError) := rfl

theorem dispatch_o {F : Type} (fromStr : String → Option F) (st : LoadState F)
    (rest : List String) :
    dispatchLine fromStr st "o" rest =
      match (if st.name ≠ "" ∧ st.tmp_faces ≠ [] then
              match export_faces st.tmp_pos st.tmp_texcoord st.tmp_normal st.tmp_faces with
              | .panic => .panic
              | .ok mesh => .ok (st.models ++ [Model.mk mesh st.name], ([] : List Face))
             else .ok (st.models, st.tmp_faces) :
             PanicOr (List (Model F) × List Face)) with
      | .panic => .panic
      | .ok (models2, faces2) =>
        match rest.head? with
        | some n =>
          .ok (.ok { st with models := models2, tmp_faces := faces2, name := n })
        | none => .ok (.error LoadError.InvalidObjectName) := rfl

theorem dispatch_other {F : Type} (fromStr : String → Option F)
    (st : LoadState F) (rest : List String) {w : String}
    (h1 : w ≠ "#") (h2 : w ≠ "v") (h3 : w ≠ "vt") (h4 : w ≠ "vn")
    (h5 : w ≠ "f") (h6 : w ≠ "o") :
    dispatchLine fromStr st w rest = .ok (.ok st) := by
  unfold dispatchLine
  rw [if_neg h1, if_neg h2, if_neg h3, if_neg h4, if_neg h5, if_neg h6]

/-! ### The meshes of all exported models satisfy the mesh invariant -/

theorem dispatchLine_models {F : Type} {fromStr : String → Option F}
    {st st2 : LoadState F} {w : String} {rest : List String}
    (h : dispatchLine fromStr st w rest = .ok (.ok st2))
    (hI : ∀ m ∈ st.models, MeshInv m.mesh) :
    ∀ m ∈ st2.models, MeshInv m.mesh := by
  by_cases h1 : w = "#"
  · subst h1
    rw [show dispatchLine fromStr st "#" rest = .ok (.ok st) from rfl] at h
    simp only [PanicOr.ok.injEq, Except.ok.injEq] at h
    subst h; exact hI
  by_cases h2 : w = "v"
  · subst h2
    rw [dispatch_v] at h
    split at h
    · simp only [PanicOr.ok.injEq, Except.ok.injEq] at h
      subst h; exact hI
    · simp at h
  by_cases h3 : w = "vt"
  · subst h3
    rw [dispatch_vt] at h
    split at h
    · simp only [PanicOr.ok.injEq, Except.ok.injEq] at h
      subst h; exact hI
    · simp at h
  by_cases h4 : w = "vn"
  · subst h4
    rw [dispatch_vn] at h
    split at h
    · simp only [PanicOr.ok.injEq, Except.ok.injEq] at h
      subst h; exact hI
    · simp at h
  by_cases h5 : w = "f"
  · subst h5
    rw [dispatch_f] at h
    split at h
    · cases h
    · simp only [PanicOr.ok.injEq, Except.ok.injEq] at h
      subst h; exact hI
    · simp at h
  by_cases h6 : w = "o"
  · subst h6
    rw [dispatch_o] at h
    split at h
    · cases h
    · rename_i models2 faces2 heq
      split at heq
      · split at heq
        · cases heq
        · rename_i mesh hexp
          simp only [PanicOr.ok.injEq, Prod.mk.injEq] at heq
          obtain ⟨hmod, _⟩ := heq
          split at h
          · simp only [PanicOr.ok.injEq, Except.ok.injEq] at h
            subst h
            intro m hm
            simp only at hm
            rw [← hmod] at hm
            rcases List.mem_append.mp hm with hm | hm
            · exact hI m hm
            · simp only [List.mem_singleton] at hm
              subst hm
              exact export_faces_inv hexp
          · simp at h
      · simp only [PanicOr.ok.injEq, Prod.mk.injEq] at heq
        obtain ⟨hmod, _⟩ := heq
        split at h
        · simp only [PanicOr.ok.injEq, Except.ok.injEq] at h
          subst h
          intro m hm
          simp only at hm
          rw [← hmod] at hm
          exact hI m hm
        · simp at h
  · rw [dispatch_other fromStr st rest h1 h2 h3 h4 h5 h6] at h
    simp only [PanicOr.ok.injEq, Except.ok.injEq] at h
    subst h; exact hI

theorem processLine_models {F : Type} {fromStr : String → Option F}
    {st st2 : LoadState F} {line : String}
    (h : processLine fromStr st line = .ok (.ok st2))
    (hI : ∀ m ∈ st.models, MeshInv m.mesh) :
    ∀ m ∈ st2.models, MeshInv m.mesh := by
  unfold processLine at h
  split at h
  · simp only [PanicOr.ok.injEq, Except.ok.injEq] at h
    subst h; exact hI
  · exact dispatchLine_models h hI

theorem loadFinish_models {F : Type} {st : LoadState F} {models : List (Model F)}
    (h : loadFinish st = .ok models)
    (hI : ∀ m ∈ st.models, MeshInv m.mesh) :
    ∀ m ∈ models, MeshInv m.mesh := by
  unfold loadFinish at h
  split at h
  · split at h
    · cases h
    · rename_i mesh hexp
      simp only [LoadOutcome.ok.injEq] at h
      subst h
      intro m hm
      rcases List.mem_append.mp hm with hm | hm
      · exact hI m hm
      · simp only [List.mem_singleton] at hm
        subst hm
        exact export_faces_inv hexp
  · simp only [LoadOutcome.ok.injEq] at h
    subst h; exact hI

theorem loadLoop_models {F : Type} {fromStr : String → Option F} :
    ∀ {lines : List String} {st : LoadState F} {models : List (Model F)},
      loadLoop fromStr lines st = .ok models →
      (∀ m ∈ st.models, MeshInv m.mesh) →
      ∀ m ∈ models, MeshInv m.mesh
  | [], st, models, h, hI => loadFinish_models h hI
  | l :: ls, st, models, h, hI => by
    unfold loadLoop at h
    split at h
    · cases h
    · cases h
    · rename_i st2 hp
      exact loadLoop_models h (processLine_models hp hI)

/-! ### Reduction lemmas for the vertex index resolver -/

theorem isizeFromStr_ne_empty {s : String} {x : Int}
    (h : isizeFromStr s = some x) : s.data.isEmpty = false := by
  cases hd : s.data with
  | nil =>
    unfold isizeFromStr at h
    rw [hd] at h
    simp [digitsVal] at h
  | cons c cs => rfl

theorem resolveOne_eq0 (p t n : Nat) (x : Int) :
    resolveOne (p, t, n) 0 x =
      .ok (castUsize (if x < 0 then x + p else x - 1)) := by
  by_cases hx : x < 0 <;> simp [resolveOne, hx]

theorem resolveOne_eq1 (p t n : Nat) (x : Int) :
    resolveOne (p, t, n) 1 x =
      .ok (castUsize (if x < 0 then x + t else x - 1)) := by
  by_cases hx : x < 0 <;> simp [resolveOne, hx]

theorem resolveOne_eq2 (p t n : Nat) (x : Int) :
    resolveOne (p, t, n) 2 x =
      .ok (castUsize (if x < 0 then x + n else x - 1)) := by
  by_cases hx : x < 0 <;> simp [resolveOne, hx]

/-! ### Claim C10 -/

/-- C10: for every face-vertex token field whose present value is the integer
0 (neither a positive absolute index nor a negative relative index), the
vertex index resolver does not fail: it computes `0 - 1` and casts it to an
unsigned index, producing `2^64 - 1` (wraparound) for that component of the
returned triple — shown for each component position, and end to end on the
token `0/0/0`. -/
theorem C10_zero_field_wraps (p t n : Nat) :
    isizeFromStr "0" = some 0 ∧
    (∀ sizes : Nat × Nat × Nat, ∀ i : Nat,
      resolveOne sizes i 0 = .ok (2 ^ 64 - 1)) ∧
    VertexIndices.parse "0/0/0" p t n =
      .ok (some ⟨2 ^ 64 - 1, 2 ^ 64 - 1, 2 ^ 64 - 1⟩) := by
  refine ⟨by decide, ?_, rfl⟩
  intro sizes i
  unfold resolveOne
  rw [if_neg (by decide : ¬(0 : Int) < 0)]
  decide

/-! ### Claim C8 -/

/-- C8 counterexample: a face-vertex token can contain a fourth `/`-separated
component without the resolver aborting.  An empty fourth component
(`"1/2/3/"`) is skipped and the token resolves successfully, and a
non-integer fourth component (`"1/2/3/x"`) is reported as a recoverable
invalid token, not a fatal abort. -/
theorem C8_counterexample :
    VertexIndices.parse "1/2/3/" 9 9 9 = .ok (some ⟨0, 1, 2⟩) ∧
    VertexIndices.parse "1/2/3/x" 9 9 9 = .ok none := by decide

/-- C8 (amended): a face-vertex token field beyond position 2 that is present
and parses as a signed integer is a fatal abort of the resolver (the explicit
abort for negative values, an out-of-bounds index-array write for
non-negative ones), never a recoverable parse error. -/
theorem C8_fourth_component_aborts (s0 s1 s2 s3 : String) (x0 x1 x2 x3 : Int)
    (p t n : Nat) (h0 : isizeFromStr s0 = some x0)
    (h1 : isizeFromStr s1 = some x1) (h2 : isizeFromStr s2 = some x2)
    (h3 : isizeFromStr s3 = some x3) :
    parseLoop (p, t, n) [(0, s0), (1, s1), (2, s2), (3, s3)] (0, 0, 0) =
      .panic := by
  have he0 := isizeFromStr_ne_empty h0
  have he1 := isizeFromStr_ne_empty h1
  have he2 := isizeFromStr_ne_empty h2
  have he3 := isizeFromStr_ne_empty h3
  simp only [parseLoop, he0, he1, he2, he3, Bool.false_eq_true, if_false,
    h0, h1, h2, h3, resolveOne_eq0, resolveOne_eq1, resolveOne_eq2, setIdx]
  by_cases hx3 : x3 < 0
  · simp [resolveOne, hx3]
  · simp [resolveOne, hx3, setIdx]

/-! ### Claim C5 -/

/-- C5 counterexample: the token `-2` with one position accumulated parses as
the negative value `-2`, and the resolver produces the wrapped unsigned index
`2^64 - 1`, not the integer `-2 + 1 = -1` that a literal reading of
"`n` plus the current count" requires (the sum is negative, so the `usize`
cast wraps). -/
theorem C5_counterexample :
    VertexIndices.parse "-2" 1 0 0 = .ok (some ⟨2 ^ 64 - 1, 0, 0⟩) ∧
    ¬(((2 ^ 64 - 1 : Nat) : Int) = -2 + 1) := by decide

/-- C5 (amended): a face-vertex token field that parses as a signed integer
`x` is resolved, for each component, to `(x + count) mod 2^64` when `x` is
negative and to `(x - 1) mod 2^64` otherwise; whenever `x + count` is in
`usize` range this equals `x + count` exactly, so `-1` denotes the most
recently appended element whenever the buffer is non-empty (of `usize` size),
and a positive `x` (being bounded by `isize::MAX`) resolves to `x - 1`. -/
theorem C5_relative_index_resolution (s0 s1 s2 : String) (x0 x1 x2 : Int)
    (p t n : Nat) (h0 : isizeFromStr s0 = some x0)
    (h1 : isizeFromStr s1 = some x1) (h2 : isizeFromStr s2 = some x2) :
    parseLoop (p, t, n) [(0, s0), (1, s1), (2, s2)] (0, 0, 0) =
      .ok (some ⟨castUsize (if x0 < 0 then x0 + p else x0 - 1),
                 castUsize (if x1 < 0 then x1 + t else x1 - 1),
                 castUsize (if x2 < 0 then x2 + n else x2 - 1)⟩) ∧
    (∀ x : Int, ∀ sz : Nat, x < 0 → 0 ≤ x + sz → x + sz < usizeMod →
      ((castUsize (x + sz) : Nat) : Int) = x + sz) ∧
    (∀ sz : Nat, 1 ≤ sz → sz ≤ 2 ^ 64 → castUsize (-1 + sz) = sz - 1) ∧
    (∀ x : Int, 0 < x → x ≤ isizeBound - 1 →
      ((castUsize (x - 1) : Nat) : Int) = x - 1) := by
  have he0 := isizeFromStr_ne_empty h0
  have he1 := isizeFromStr_ne_empty h1
  have he2 := isizeFromStr_ne_empty h2
  refine ⟨?_, ?_, ?_, ?_⟩
  · simp only [parseLoop, he0, he1, he2, Bool.false_eq_true, if_false,
      h0, h1, h2, resolveOne_eq0, resolveOne_eq1, resolveOne_eq2, setIdx]
  · intro x sz hneg hlo hhi
    unfold castUsize usizeMod at *
    omega
  · intro sz h1 h2
    unfold castUsize usizeMod
    omega
  · intro x hpos hbound
    unfold castUsize usizeMod isizeBound at *
    omega

/-! ### Claim C1 -/

/-- C1 (code bug evidence): a face record whose resolved vertex index is out
of range of the accumulated position buffer is accepted by the face parser
(no bounds check, no face-parse error), and the subsequent export reads the
raw position buffer out of bounds, aborting the whole load (a Rust indexing
panic) instead of failing with a face-parse error: with exactly one position
accumulated, `f 1 2 3` resolves to indices `0, 1, 2` and the load aborts. -/
theorem C1_no_bounds_check_before_access :
    parse_face ["1", "2", "3"] [] 1 0 0 =
      .ok (true, [Face.Triangle ⟨0, 0, 0⟩ ⟨1, 0, 0⟩ ⟨2, 0, 0⟩]) ∧
    load_obj_buf isizeFromStr ["v 0 0 0", "o A", "f 1 2 3"] = .panic ∧
    LoadOutcome.panic ≠ (.err .FaceParseError : LoadOutcome Int) := by decide

/-- Witness for C5: token fields `-1`, `2`, `3` with one position accumulated
resolve to indices `0`, `1`, `2` (`-1` hits the most recent position). -/
theorem C5_relative_index_resolution_witness :
    isizeFromStr "-1" = some (-1) ∧
    parseLoop (1, 9, 9) [(0, "-1"), (1, "2"), (2, "3")] (0, 0, 0) =
      .ok (some ⟨0, 1, 2⟩) := by
  refine ⟨by decide, ?_⟩
  have h := (C5_relative_index_resolution "-1" "2" "3" (-1) 2 3 1 9 9
    (by decide) (by decide) (by decide)).1
  rw [h]
  decide

/-- Witness for C8: the token fields `1`, `2`, `3`, `4` (all present and
integer-parseable, the last at component position 3) abort the resolver. -/
theorem C8_fourth_component_aborts_witness :
    parseLoop (9, 9, 9) [(0, "1"), (1, "2"), (2, "3"), (3, "4")] (0, 0, 0) =
      .panic :=
  C8_fourth_component_aborts "1" "2" "3" "4" 1 2 3 4 9 9 9
    (by decide) (by decide) (by decide) (by decide)

/-! ### Claim C2 -/

/-- C2: for an `f` record, if the whitespace-separated tokens resolve to
exactly 3 vertex-index triples a triangle face is appended to the pending
face list, exactly 4 a quadrilateral; any other count, or any token whose
resolution fails, makes the load step fail with a face-parse error and
leaves the pending face list unchanged (no partial face). -/
theorem C2_face_record_classification {F : Type} (fromStr : String → Option F)
    (st : LoadState F) (line : String) (rest : List String)
    (hsplit : splitChar ' ' (trimStr line) = "f" :: rest) :
    (∀ a b c, collect_face_indices (st.tmp_pos.length / 3)
        (st.tmp_texcoord.length / 2) (st.tmp_normal.length / 3) rest [] =
        .ok (some [a, b, c]) →
      processLine fromStr st line =
        .ok (.ok { st with tmp_faces := st.tmp_faces ++ [Face.Triangle a b c] })) ∧
    (∀ a b c d, collect_face_indices (st.tmp_pos.length / 3)
        (st.tmp_texcoord.length / 2) (st.tmp_normal.length / 3) rest [] =
        .ok (some [a, b, c, d]) →
      processLine fromStr st line =
        .ok (.ok { st with tmp_faces := st.tmp_faces ++ [Face.Quad a b c d] })) ∧
    (∀ l, collect_face_indices (st.tmp_pos.length / 3)
        (st.tmp_texcoord.length / 2) (st.tmp_normal.length / 3) rest [] =
        .ok (some l) → l.length ≠ 3 → l.length ≠ 4 →
      parse_face rest st.tmp_faces (st.tmp_pos.length / 3)
          (st.tmp_texcoord.length / 2) (st.tmp_normal.length / 3) =
        .ok (false, st.tmp_faces) ∧
      processLine fromStr st line = .ok (.error LoadError.FaceParseError)) ∧
    (collect_face_indices (st.tmp_pos.length / 3) (st.tmp_texcoord.length / 2)
        (st.tmp_normal.length / 3) rest [] = .ok none →
      parse_face rest st.tmp_faces (st.tmp_pos.length / 3)
          (st.tmp_texcoord.length / 2) (st.tmp_normal.length / 3) =
        .ok (false, st.tmp_faces) ∧
      processLine fromStr st line = .ok (.error LoadError.FaceParseError)) := by
  have hP := processLine_cons fromStr st hsplit
  refine ⟨?_, ?_, ?_, ?_⟩
  · intro a b c hc
    rw [hP, dispatch_f]
    unfold parse_face
    rw [hc]
  · intro a b c d hc
    rw [hP, dispatch_f]
    unfold parse_face
    rw [hc]
  · intro l hc h3 h4
    have hpf : parse_face rest st.tmp_faces (st.tmp_pos.length / 3)
        (st.tmp_texcoord.length / 2) (st.tmp_normal.length / 3) =
        .ok (false, st.tmp_faces) := by
      unfold parse_face
      rw [hc]
      rcases l with _ | ⟨a, _ | ⟨b, _ | ⟨c, _ | ⟨d, tl⟩⟩⟩⟩
      · rfl
      · rfl
      · rfl
      · simp at h3
      · rcases tl with _ | ⟨e, tl⟩
        · simp at h4
        · rfl
    refine ⟨hpf, ?_⟩
    rw [hP, dispatch_f, hpf]
  · intro hc
    have hpf : parse_face rest st.tmp_faces (st.tmp_pos.length / 3)
        (st.tmp_texcoord.length / 2) (st.tmp_normal.length / 3) =
        .ok (false, st.tmp_faces) := by
      unfold parse_face
      rw [hc]
    refine ⟨hpf, ?_⟩
    rw [hP, dispatch_f, hpf]

/-- Witness for C2: `f 1 2 3` from the initial state appends one triangle. -/
theorem C2_face_record_classification_witness :
    processLine isizeFromStr (initState Int) "f 1 2 3" =
      .ok (.ok { initState Int with
                 tmp_faces := (initState Int).tmp_faces ++
                   [Face.Triangle ⟨0, 0, 0⟩ ⟨1, 0, 0⟩ ⟨2, 0, 0⟩] }) :=
  (C2_face_record_classification isizeFromStr (initState Int)
    "f 1 2 3" ["1", "2", "3"] (by decide)).1 ⟨0, 0, 0⟩ ⟨1, 0, 0⟩ ⟨2, 0, 0⟩
    (by decide)

/-! ### Claim C7 -/

/-- C7: on an `o` record, if a name is set and the pending face list is
non-empty, the current object is exported into a Model named with the current
name, appended to the result collection, and the face list cleared; then the
next token becomes the new object name, and the load fails with an
invalid-object-name error when no token follows `o`.  On end of input, a set
name triggers a final export and append regardless of pending faces. -/
theorem C7_object_boundary {F : Type} (fromStr : String → Option F)
    (st : LoadState F) (line : String) (rest : List String)
    (hsplit : splitChar ' ' (trimStr line) = "o" :: rest) :
    (st.name ≠ "" → st.tmp_faces ≠ [] → ∀ mesh,
      export_faces st.tmp_pos st.tmp_texcoord st.tmp_normal st.tmp_faces =
        .ok mesh →
      (∀ n rest2, rest = n :: rest2 →
        processLine fromStr st line =
          .ok (.ok { st with
                     models := st.models ++ [Model.mk mesh st.name]
                     tmp_faces := []
                     name := n })) ∧
      (rest = [] →
        processLine fromStr st line =
          .ok (.error LoadError.InvalidObjectName))) ∧
    (¬(st.name ≠ "" ∧ st.tmp_faces ≠ []) →
      (∀ n rest2, rest = n :: rest2 →
        processLine fromStr st line = .ok (.ok { st with name := n })) ∧
      (rest = [] →
        processLine fromStr st line =
          .ok (.error LoadError.InvalidObjectName))) ∧
    (st.name ≠ "" → ∀ mesh,
      export_faces st.tmp_pos st.tmp_texcoord st.tmp_normal st.tmp_faces =
        .ok mesh →
      loadFinish st = .ok (st.models ++ [Model.mk mesh st.name])) ∧
    (st.name = "" → loadFinish st = .ok st.models) := by
  refine ⟨?_, ?_, ?_, ?_⟩
  · intro hname hfaces mesh hexp
    constructor
    · intro n rest2 hr
      subst hr
      rw [processLine_cons fromStr st hsplit, dispatch_o,
        if_pos ⟨hname, hfaces⟩, hexp]
      rfl
    · intro hr
      subst hr
      rw [processLine_cons fromStr st hsplit, dispatch_o,
        if_pos ⟨hname, hfaces⟩, hexp]
      rfl
  · intro hc
    constructor
    · intro n rest2 hr
      subst hr
      rw [processLine_cons fromStr st hsplit, dispatch_o, if_neg hc]
      rfl
    · intro hr
      subst hr
      rw [processLine_cons fromStr st hsplit, dispatch_o, if_neg hc]
      rfl
  · intro hname mesh hexp
    unfold loadFinish
    rw [if_pos hname, hexp]
  · intro hname
    unfold loadFinish
    rw [if_neg (fun h => h hname)]

/-- Witness for C7: an `o B` record with name `A` set and one pending face
exports the model named `A`, clears the face list and switches to name `B`. -/
theorem C7_object_boundary_witness :
    processLine isizeFromStr
      (⟨[], [0, 0, 0, 1, 0, 0, 1, 1, 0], [], [],
        [Face.Triangle ⟨0, 0, 0⟩ ⟨1, 0, 0⟩ ⟨2, 0, 0⟩], "A"⟩ : LoadState Int)
      "o B" =
      .ok (.ok ⟨[Model.mk ⟨[0, 0, 0, 1, 0, 0, 1, 1, 0], [], [], [0, 1, 2]⟩ "A"],
        [0, 0, 0, 1, 0, 0, 1, 1, 0], [], [], [], "B"⟩) := by
  have h := (((C7_object_boundary isizeFromStr
    (⟨[], [0, 0, 0, 1, 0, 0, 1, 1, 0], [], [],
      [Face.Triangle ⟨0, 0, 0⟩ ⟨1, 0, 0⟩ ⟨2, 0, 0⟩], "A"⟩ : LoadState Int)
    "o B" ["B"] (by decide)).1 (by decide) (by decide)
    ⟨[0, 0, 0, 1, 0, 0, 1, 1, 0], [], [], [0, 1, 2]⟩ (by decide)).1 "B" [] rfl)
  rw [h]
  rfl

/-! ### Claim C9 -/

/-- C9: while no object name is set, an `o` record performs no export and
leaves both the pending face list and the model collection untouched (only
the name changes), so faces accumulated before the first `o` record survive
into the first named object; end to end, a face preceding `o A` appears in
the mesh of the model named `A`. -/
theorem C9_orphan_faces_kept {F : Type} (fromStr : String → Option F)
    (st : LoadState F) (line : String) (rest : List String)
    (hsplit : splitChar ' ' (trimStr line) = "o" :: rest)
    (hname : st.name = "") :
    (∀ n rest2, rest = n :: rest2 →
      processLine fromStr st line = .ok (.ok { st with name := n })) ∧
    load_obj_buf isizeFromStr
        ["v 0 0 0", "v 1 0 0", "v 1 1 0", "f 1 2 3", "o A"] =
      .ok [Model.mk ⟨[0, 0, 0, 1, 0, 0, 1, 1, 0], [], [], [0, 1, 2]⟩ "A"] := by
  constructor
  · intro n rest2 hr
    subst hr
    rw [processLine_cons fromStr st hsplit, dispatch_o,
      if_neg (fun hc => hc.1 hname)]
    rfl
  · decide

/-- Witness for C9: an `o A` record seen with pending faces and no name set
keeps the faces and models and only sets the name. -/
theorem C9_orphan_faces_kept_witness :
    processLine isizeFromStr
      (⟨[], [0, 0, 0], [], [],
        [Face.Triangle ⟨0, 0, 0⟩ ⟨0, 0, 0⟩ ⟨0, 0, 0⟩], ""⟩ : LoadState Int)
      "o A" =
      .ok (.ok ⟨[], [0, 0, 0], [], [],
        [Face.Triangle ⟨0, 0, 0⟩ ⟨0, 0, 0⟩ ⟨0, 0, 0⟩], "A"⟩) := by
  have h := (C9_orphan_faces_kept isizeFromStr
    (⟨[], [0, 0, 0], [], [],
      [Face.Triangle ⟨0, 0, 0⟩ ⟨0, 0, 0⟩ ⟨0, 0, 0⟩], ""⟩ : LoadState Int)
    "o A" ["A"] (by decide) rfl).1 "A" [] rfl
  rw [h]

/-! ### Claim C3 -/

/-- C3: exporting a quadrilateral face `(a,b,c,d)` performs the six
`add_vertex` calls `a,b,c,a,c,d`, so exactly the two triangles `(a,b,c)` and
`(a,c,d)` are emitted, in that order, into the mesh index buffer (the 4th and
5th emitted indices repeat the 1st and 3rd); and the input `o q`, `v 0 0 0`,
`v 1 0 0`, `v 1 1 0`, `v 0 1 0`, `f 1 2 3 4` yields one Model whose mesh has
4 position triples and the 6 indices `[0,1,2,0,2,3]`. -/
theorem C3_quad_fan_triangulation {F : Type} (pos texcoord normal : List F)
    (a b c d : VertexIndices) (mesh : Mesh F) (index_map : IndexMap)
    (m2 : Mesh F) (map2 : IndexMap)
    (h : add_face_vertices pos texcoord normal (Face.Quad a b c d).vertexList
      mesh index_map = .ok (m2, map2)) :
    (∃ ia ib ic id2,
      m2.indices = mesh.indices ++ [ia, ib, ic, ia, ic, id2]) ∧
    load_obj_buf isizeFromStr
        ["o q", "v 0 0 0", "v 1 0 0", "v 1 1 0", "v 0 1 0", "f 1 2 3 4"] =
      .ok [Model.mk ⟨[0, 0, 0, 1, 0, 0, 1, 1, 0, 0, 1, 0], [], [],
        [0, 1, 2, 0, 2, 3]⟩ "q"] := by
  constructor
  · simp only [Face.vertexList] at h
    obtain ⟨m1, p1, h1, h⟩ := add_face_vertices_cons_ok h
    obtain ⟨mB, p2, h2, h⟩ := add_face_vertices_cons_ok h
    obtain ⟨m3, p3, h3, h⟩ := add_face_vertices_cons_ok h
    obtain ⟨m4, p4, h4, h⟩ := add_face_vertices_cons_ok h
    obtain ⟨m5, p5, h5, h⟩ := add_face_vertices_cons_ok h
    obtain ⟨m6, p6, h6, h⟩ := add_face_vertices_cons_ok h
    unfold add_face_vertices at h
    simp only [PanicOr.ok.injEq, Prod.mk.injEq] at h
    obtain ⟨hm6, -⟩ := h
    obtain ⟨ja, hia, hfa, hmona⟩ := add_vertex_pushed h1
    obtain ⟨jb, hib, hfb, hmonb⟩ := add_vertex_pushed h2
    obtain ⟨jc, hic, hfc, hmonc⟩ := add_vertex_pushed h3
    have hfa3 : IndexMap.find p3 a = some ja := hmonc _ _ (hmonb _ _ hfa)
    have h4e := @add_vertex_hit F m3 p3 a ja pos texcoord normal hfa3
    rw [h4e] at h4
    simp only [PanicOr.ok.injEq, Prod.mk.injEq] at h4
    obtain ⟨hm4, hp4⟩ := h4
    have hfc4 : IndexMap.find p4 c = some jc := hp4 ▸ hfc
    have h5e := @add_vertex_hit F m4 p4 c jc pos texcoord normal hfc4
    rw [h5e] at h5
    simp only [PanicOr.ok.injEq, Prod.mk.injEq] at h5
    obtain ⟨hm5, hp5⟩ := h5
    obtain ⟨jd, hid, -, -⟩ := add_vertex_pushed h6
    refine ⟨ja, jb, jc, jd, ?_⟩
    have e4 : m4.indices = m3.indices ++ [ja] := by rw [← hm4]
    have e5 : m5.indices = m4.indices ++ [jc] := by rw [← hm5]
    rw [← hm6, hid, e5, e4, hic, hib, hia]
    simp
  · decide

/-- Witness for C3: the concrete quad over four distinct positions emits the
index pattern `[0, 1, 2, 0, 2, 3]`. -/
theorem C3_quad_fan_triangulation_witness :
    (∃ ia ib ic id2,
      (⟨[0, 0, 0, 1, 0, 0, 1, 1, 0, 0, 1, 0], [], [],
        [0, 1, 2, 0, 2, 3]⟩ : Mesh Int).indices =
        (Mesh.empty Int).indices ++ [ia, ib, ic, ia, ic, id2]) ∧
    load_obj_buf isizeFromStr
        ["o q", "v 0 0 0", "v 1 0 0", "v 1 1 0", "v 0 1 0", "f 1 2 3 4"] =
      .ok [Model.mk ⟨[0, 0, 0, 1, 0, 0, 1, 1, 0, 0, 1, 0], [], [],
        [0, 1, 2, 0, 2, 3]⟩ "q"] :=
  C3_quad_fan_triangulation [0, 0, 0, 1, 0, 0, 1, 1, 0, 0, 1, 0] [] []
    ⟨0, 0, 0⟩ ⟨1, 0, 0⟩ ⟨2, 0, 0⟩ ⟨3, 0, 0⟩ (Mesh.empty Int) []
    ⟨[0, 0, 0, 1, 0, 0, 1, 1, 0, 0, 1, 0], [], [], [0, 1, 2, 0, 2, 3]⟩
    [(⟨0, 0, 0⟩, 0), (⟨1, 0, 0⟩, 1), (⟨2, 0, 0⟩, 2), (⟨3, 0, 0⟩, 3)]
    (by decide)

/-! ### Claim C4 -/

/-- C4: within one export call, a face-vertex whose `(v,vt,vn)` triple is
already mapped is assigned its existing output index (so identical triples
share an index; the map is preserved, and mappings are never changed by later
calls), a previously unseen triple is assigned the next sequential output
index — the current size of the deduplication map (its position floats, and
texcoord / normal floats when those buffers are non-empty, copied into the
mesh) — and `export_faces` starts from an empty map on every call, so index
spaces of different objects are independent. -/
theorem C4_vertex_deduplication {F : Type} (mesh : Mesh F)
    (index_map : IndexMap) (vert : VertexIndices)
    (pos texcoord normal : List F) :
    (∀ i, IndexMap.find index_map vert = some i →
      add_vertex mesh index_map vert pos texcoord normal =
        .ok ({ mesh with indices := mesh.indices ++ [i] }, index_map)) ∧
    (∀ m2 map2, IndexMap.find index_map vert = none →
      add_vertex mesh index_map vert pos texcoord normal = .ok (m2, map2) →
      m2.indices = mesh.indices ++ [castU32 index_map.length] ∧
      map2 = index_map ++ [(vert, castU32 index_map.length)] ∧
      (index_map.length < 2 ^ 32 →
        castU32 index_map.length = index_map.length) ∧
      (∃ p0 p1 p2, getF pos (vert.v * 3) = .ok p0 ∧
        getF pos (vert.v * 3 + 1) = .ok p1 ∧
        getF pos (vert.v * 3 + 2) = .ok p2 ∧
        m2.positions = mesh.positions ++ [p0, p1, p2]) ∧
      (texcoord = [] → m2.texcoords = mesh.texcoords) ∧
      (texcoord ≠ [] → ∃ t0 t1, m2.texcoords = mesh.texcoords ++ [t0, t1]) ∧
      (normal = [] → m2.normals = mesh.normals) ∧
      (normal ≠ [] → ∃ n0 n1 n2, m2.normals = mesh.normals ++ [n0, n1, n2])) ∧
    (∀ m2 map2,
      add_vertex mesh index_map vert pos texcoord normal = .ok (m2, map2) →
      ∀ k i, IndexMap.find index_map k = some i →
        IndexMap.find map2 k = some i) ∧
    (∀ faces : List Face, export_faces pos texcoord normal faces =
      export_faces_go pos texcoord normal faces (Mesh.empty F) []) := by
  refine ⟨?_, ?_, ?_, fun faces => rfl⟩
  · intro i hfind
    exact add_vertex_hit pos texcoord normal hfind
  · intro m2 map2 hnone h
    rcases add_vertex_cases h with
      ⟨i, hfind, -, -, -, -, -⟩ |
      ⟨-, hmap, hidx, hpos, htexc, hnormc⟩
    · rw [hnone] at hfind; cases hfind
    · refine ⟨hidx, hmap, fun hlt => Nat.mod_eq_of_lt hlt, hpos, ?_, ?_, ?_, ?_⟩
      · intro hte
        rcases htexc with ⟨-, heq⟩ | ⟨htne, -⟩
        · exact heq
        · exact absurd hte htne
      · intro htne
        rcases htexc with ⟨hte, -⟩ | ⟨-, t0, t1, -, -, heq⟩
        · exact absurd hte htne
        · exact ⟨t0, t1, heq⟩
      · intro hne
        rcases hnormc with ⟨-, heq⟩ | ⟨hnne, -⟩
        · exact heq
        · exact absurd hne hnne
      · intro hnne
        rcases hnormc with ⟨hne, -⟩ | ⟨-, n0, n1, n2, -, -, -, heq⟩
        · exact absurd hne hnne
        · exact ⟨n0, n1, n2, heq⟩
  · intro m2 map2 h k i hk
    obtain ⟨-, -, -, hmono⟩ := add_vertex_pushed h
    exact hmono k i hk

/-- Witness for C4: re-adding the already-mapped triple `(0,0,0)` re-uses its
assigned index `0` and leaves the map unchanged. -/
theorem C4_vertex_deduplication_witness :
    add_vertex (Mesh.empty Int) [(⟨0, 0, 0⟩, 0)] ⟨0, 0, 0⟩ [0, 0, 0] [] [] =
      .ok ({ Mesh.empty Int with
             indices := (Mesh.empty Int).indices ++ [0] }, [(⟨0, 0, 0⟩, 0)]) :=
  (C4_vertex_deduplication (Mesh.empty Int) [(⟨0, 0, 0⟩, 0)] ⟨0, 0, 0⟩
    [0, 0, 0] [] []).1 0 (by decide)

/-! ### Claim C6 -/

/-- C6: every mesh of every model produced by a successful load satisfies the
mesh invariant: `positions`, `normals` and `indices` have lengths divisible
by 3, `texcoords` by 2, and every index value is strictly below
`positions.length / 3`. -/
theorem C6_mesh_invariants {F : Type} (fromStr : String → Option F)
    (lines : List String) (models : List (Model F))
    (h : load_obj_buf fromStr lines = .ok models) :
    ∀ m ∈ models, MeshInv m.mesh := by
  unfold load_obj_buf at h
  refine loadLoop_models h ?_
  intro m hm
  simp [initState] at hm

/-- Witness for C6: the invariant holds for the model loaded from a concrete
triangle input. -/
theorem C6_mesh_invariants_witness :
    MeshInv (⟨[0, 0, 0, 1, 0, 0, 1, 1, 0], [], [], [0, 1, 2]⟩ : Mesh Int) :=
  C6_mesh_invariants isizeFromStr
    ["o A", "v 0 0 0", "v 1 0 0", "v 1 1 0", "f 1 2 3"]
    [Model.mk ⟨[0, 0, 0, 1, 0, 0, 1, 1, 0], [], [], [0, 1, 2]⟩ "A"]
    (by decide)
    (Model.mk ⟨[0, 0, 0, 1, 0, 0, 1, 1, 0], [], [], [0, 1, 2]⟩ "A")
    (by decide)

/-- Witness for C10: the end-to-end component of the claim at concrete buffer
counts. -/
theorem C10_zero_field_wraps_witness :
    VertexIndices.parse "0/0/0" 5 6 7 =
      .ok (some ⟨2 ^ 64 - 1, 2 ^ 64 - 1, 2 ^ 64 - 1⟩) :=
  (C10_zero_field_wraps 5 6 7).2.2
